import Mathlib

/-!
Shallow embedding of the matrix-filter orchestrator (C++ sources):
the on-demand main loop of the orchestrator (consumer-presence edges,
camera lifecycle machine, effect sequencer), the duration parser
(`time_utils.h`), the consumer detector, the virtual output writer and
the camera resolution selector.  Machine `uint64_t` arithmetic is
modelled on `Nat` with explicit reduction modulo `2^64` where the C++
code can wrap (unsigned subtraction and addition of timestamps).
-/

namespace MatrixFilter

/-- `2^64`, the modulus of C++ `uint64_t` arithmetic. -/
def U64 : Nat := 18446744073709551616

/-- `UINT64_MAX`, used by `parseArgs` as the sentinel for
"start delay not set, draw a random interval". -/
def UINT64_MAX : Nat := U64 - 1

/-- C++ `uint64_t` subtraction `a - b` (wraps modulo `2^64`). -/
def u64sub (a b : Nat) : Nat := (a % U64 + (U64 - b % U64)) % U64

/-- C++ `uint64_t` addition `a + b` (wraps modulo `2^64`). -/
def u64add (a b : Nat) : Nat := (a + b) % U64

/-- `enum class Resolution` from `config.h`. -/
inductive Resolution where
  | low
  | medium
  | high
deriving DecidableEq, Repr

/-- `enum class EffectState` from `config.h`
(`PASSTHROUGH`, `STATIC`, `MATRIX`). -/
inductive EffectState where
  | passthrough
  | staticFx
  | matrix
deriving DecidableEq, Repr

/-- `enum class CameraState` from `config.h`
(`IDLE`, `CONNECTING`, `ACTIVE`, `UNAVAILABLE`). -/
inductive CameraState where
  | idle
  | connecting
  | active
  | unavailable
deriving DecidableEq, Repr

/-- `struct Config` from `config.h` (the fields that drive the
orchestration; the two device-path strings are irrelevant to the
control flow and omitted).  Durations are `uint64_t` milliseconds,
`cycles` is a C++ `int` (modelled as `Int`; it is only compared and
never overflows in any modelled run). -/
structure Config where
  minInterval : Nat := 60000
  maxInterval : Nat := 3600000
  effectDuration : Nat := 5000
  staticDuration : Nat := 300
  startDelay : Nat := 0
  testMode : Bool := false
  cycles : Int := 0
  resolution : Resolution := .high
  onDemand : Bool := true
  overlay : Bool := false
  cameraPollInterval : Nat := 1000
deriving DecidableEq, Repr

/-- The `// Validate` block at the end of `parseArgs`:
`minInterval` is clamped up to 1, `maxInterval` up to `minInterval`,
`effectDuration` and `staticDuration` up to 10. -/
def validateConfig (c : Config) : Config :=
  let c := if c.minInterval < 1 then { c with minInterval := 1 } else c
  let c := if c.maxInterval < c.minInterval then { c with maxInterval := c.minInterval } else c
  let c := if c.effectDuration < 10 then { c with effectDuration := 10 } else c
  let c := if c.staticDuration < 10 then { c with staticDuration := 10 } else c
  c

/-- `randomIntervalMs(minMs, maxMs, rng)` returns one draw of
`std::uniform_int_distribution<uint64_t>(minMs, maxMs)`.  The standard
library distribution is external to this repository; it is modelled by
its contract — a uniform integer draw over the closed range
`[minMs, maxMs]` — with `r` standing for the entropy consumed from the
generator: every residue of `r` modulo the range size picks one value,
inclusive of both bounds. -/
def randomIntervalMs (minMs maxMs r : Nat) : Nat :=
  minMs + r % (maxMs - minMs + 1)

/-- The mutable locals of `main`'s on-demand loop that persist across
iterations (part_007, second translation unit, lines 526-538):
camera lifecycle state, whether the physical capture handle is open
(`camera.isOpened()`), the poll clock, the previous tick's consumer
flag, and the effect sequencer fields. -/
structure LoopState where
  cameraState : CameraState
  cameraOpen : Bool
  lastCameraPollTime : Nat
  hadConsumers : Bool
  effectState : EffectState
  nextEffectTime : Nat
  effectTimerInitialized : Bool
  stateStartTime : Nat
  cycleCount : Int
  effectsFinished : Bool
deriving DecidableEq, Repr

/-- The environment inputs consumed by one iteration of the main loop:
the monotonic clock value, the consumer detector's answer, whether
`tryOpenCamera` would succeed this tick, whether `camera.captureFrame()`
returns an empty frame, and the entropy for `randomIntervalMs`. -/
structure TickInput where
  currentTime : Nat
  hasConsumers : Bool
  openSucceeds : Bool
  captureEmpty : Bool
  rand : Nat
deriving DecidableEq, Repr

/-- Which frame generator produced the tick's output frame. -/
inductive FrameSource where
  | staticNoise
  | cameraFrame
  | matrixRendered
  | matrixOverlayed
deriving DecidableEq, Repr

/-- Observable outcome of one loop iteration: the frame source handed
to `output.writeFrame`, and whether `camera.captureFrame()` was invoked
on the physical device this tick. -/
structure TickResult where
  frame : FrameSource
  captured : Bool
deriving DecidableEq, Repr

/-- The `if (config.onDemand) { ... }` consumer block at the top of the
loop (lines 555-575): connect edges enter `CONNECTING`; disconnect
edges close the camera if open, enter `IDLE`, clear
`effectTimerInitialized` and reset the effect machine to
`PASSTHROUGH`; `hadConsumers` is refreshed to this tick's reading. -/
def consumerStep (cfg : Config) (s : LoopState) (hasCons : Bool) : LoopState :=
  if cfg.onDemand then
    let s1 :=
      if hasCons && !s.hadConsumers then
        { s with cameraState := .connecting }
      else if !hasCons && s.hadConsumers then
        { s with cameraOpen := false
               , cameraState := .idle
               , effectTimerInitialized := false
               , effectState := .passthrough }
      else s
    { s1 with hadConsumers := hasCons }
  else s

/-- The `if (!effectTimerInitialized) { ... }` block on entering the
`ACTIVE` case (lines 648-662): arm `nextEffectTime` immediately in test
mode, from the explicit start delay, or from a random draw when the
start delay holds the `UINT64_MAX` sentinel. -/
def armTimer (cfg : Config) (s : LoopState) (now r : Nat) : LoopState :=
  if !s.effectTimerInitialized then
    let t :=
      if cfg.testMode then now
      else if cfg.startDelay = UINT64_MAX then
        u64add now (randomIntervalMs cfg.minInterval cfg.maxInterval r)
      else u64add now cfg.startDelay
    { s with nextEffectTime := t, effectTimerInitialized := true }
  else s

/-- The effect sequencer switch inside the `ACTIVE` case
(lines 678-720), reached only after a successful capture; returns the
updated state and the frame source selected for this tick. -/
def effectStep (cfg : Config) (s : LoopState) (now r : Nat) :
    LoopState × FrameSource :=
  match s.effectState with
  | .passthrough =>
      if !s.effectsFinished && decide (now ≥ s.nextEffectTime) then
        ({ s with effectState := .staticFx, stateStartTime := now }, .cameraFrame)
      else (s, .cameraFrame)
  | .staticFx =>
      if u64sub now s.stateStartTime ≥ cfg.staticDuration then
        ({ s with effectState := .matrix, stateStartTime := now }, .staticNoise)
      else (s, .staticNoise)
  | .matrix =>
      let fr : FrameSource := if cfg.overlay then .matrixOverlayed else .matrixRendered
      if u64sub now s.stateStartTime ≥ cfg.effectDuration then
        let s1 := { s with effectState := .passthrough, cycleCount := s.cycleCount + 1 }
        if cfg.cycles > 0 && s1.cycleCount ≥ cfg.cycles then
          ({ s1 with effectsFinished := true }, fr)
        else
          ({ s1 with nextEffectTime :=
               u64add now (randomIntervalMs cfg.minInterval cfg.maxInterval r) }, fr)
      else (s, fr)

/-- The `switch (cameraState)` of the loop body (lines 578-723).
`IDLE` emits the filler static visual without touching the camera.
`CONNECTING` resolves within the same tick: a successful
`tryOpenCamera` leaves the handle open and enters `ACTIVE`; a failure
leaves it closed (`CameraCapture::open` closes any previous handle
before attempting, so a failed attempt holds no handle) and enters
`UNAVAILABLE`, stamping the poll clock.  `UNAVAILABLE` retries the open
once the fixed poll interval has elapsed, stamping the poll clock on
every attempt.  `ACTIVE` arms the effect timer if needed, then
captures: an empty frame closes the handle and forces `UNAVAILABLE`,
emitting the filler visual this tick; otherwise the effect sequencer
runs on the captured frame. -/
def cameraStep (cfg : Config) (s : LoopState) (inp : TickInput) :
    LoopState × TickResult :=
  match s.cameraState with
  | .idle => (s, ⟨.staticNoise, false⟩)
  | .connecting =>
      if inp.openSucceeds then
        ({ s with cameraState := .active, cameraOpen := true }, ⟨.staticNoise, false⟩)
      else
        ({ s with cameraState := .unavailable, cameraOpen := false
                , lastCameraPollTime := inp.currentTime }, ⟨.staticNoise, false⟩)
  | .unavailable =>
      if u64sub inp.currentTime s.lastCameraPollTime ≥ cfg.cameraPollInterval then
        if inp.openSucceeds then
          ({ s with cameraState := .active, cameraOpen := true
                  , lastCameraPollTime := inp.currentTime }, ⟨.staticNoise, false⟩)
        else
          ({ s with cameraOpen := false
                  , lastCameraPollTime := inp.currentTime }, ⟨.staticNoise, false⟩)
      else (s, ⟨.staticNoise, false⟩)
  | .active =>
      let s1 := armTimer cfg s inp.currentTime inp.rand
      if inp.captureEmpty then
        ({ s1 with cameraOpen := false, cameraState := .unavailable
                 , lastCameraPollTime := inp.currentTime }, ⟨.staticNoise, true⟩)
      else
        let sf := effectStep cfg s1 inp.currentTime inp.rand
        (sf.1, ⟨sf.2, true⟩)

/-- One full iteration of the main loop: the consumer-presence block
runs first, then the camera-state switch (which ticks the effect
sequencer when `ACTIVE`).  This sequencing is literal in the source:
lines 555-575 precede lines 578-723 in the same loop body. -/
def tick (cfg : Config) (s : LoopState) (inp : TickInput) :
    LoopState × TickResult :=
  cameraStep cfg (consumerStep cfg s inp.hasConsumers) inp

/-- The state part of `tick`. -/
def tickS (cfg : Config) (s : LoopState) (inp : TickInput) : LoopState :=
  (tick cfg s inp).1

/-- The result part of `tick`. -/
def tickR (cfg : Config) (s : LoopState) (inp : TickInput) : TickResult :=
  (tick cfg s inp).2

/-- Iterate the loop over a list of tick inputs. -/
def run (cfg : Config) (s : LoopState) (l : List TickInput) : LoopState :=
  l.foldl (tickS cfg) s

/-- The loop-local state at entry to the main loop (lines 526-538):
`IDLE` with the probe handle already closed in on-demand mode,
`ACTIVE` holding the handle otherwise (a failed mandatory open exits
the process before the loop); the effect machine starts in
`PASSTHROUGH` with the timer unarmed. -/
def initState (cfg : Config) : LoopState :=
  { cameraState := if cfg.onDemand then .idle else .active
  , cameraOpen := !cfg.onDemand
  , lastCameraPollTime := 0
  , hadConsumers := false
  , effectState := .passthrough
  , nextEffectTime := 0
  , effectTimerInitialized := false
  , stateStartTime := 0
  , cycleCount := 0
  , effectsFinished := false }

/-! ### Duration parser (`time_utils.h`) -/

/-- `std::isdigit` on an ASCII character. -/
def isDigitCh (c : Char) : Bool := 48 ≤ c.toNat && c.toNat ≤ 57

/-- `::tolower` on an ASCII character. -/
def toLowerCh (c : Char) : Char :=
  if 65 ≤ c.toNat && c.toNat ≤ 90 then Char.ofNat (c.toNat + 32) else c

/-- Value of a decimal digit string, as computed by `std::stoull` on a
string of digits (most significant first). -/
def digitsToNat (ds : List Char) : Nat :=
  ds.foldl (fun a c => a * 10 + (c.toNat - 48)) 0

/-- The millisecond unit spellings accepted by `parseTime`. -/
def msUnits : List String := ["ms", "milli", "millisecond", "milliseconds"]

/-- The second unit spellings accepted by `parseTime`. -/
def secUnits : List String := ["s", "sec", "secs", "second", "seconds"]

/-- The minute unit spellings accepted by `parseTime`. -/
def minUnits : List String := ["m", "min", "minute", "minutes"]

/-- The hour unit spellings accepted by `parseTime`. -/
def hourUnits : List String := ["h", "hour", "hours"]

/-- `parseTime` from `time_utils.h`: maximal leading digit run, then an
optional case-insensitive unit suffix; no digits, an unknown suffix, or
a digit run exceeding `ULLONG_MAX` (where `std::stoull` raises
`out_of_range`) fail — modelled as `none` (the C++ code throws).  The
unit multiplications are `uint64_t` and wrap modulo `2^64`. -/
def parseTime (input : String) : Option Nat :=
  let cs := input.data
  if cs.isEmpty then none else
  let ds := cs.takeWhile isDigitCh
  let rest := cs.dropWhile isDigitCh
  if ds.isEmpty then none else
  let value := digitsToNat ds
  if U64 ≤ value then none else
  if rest.isEmpty then some value else
  let unit := String.mk (rest.map toLowerCh)
  if msUnits.contains unit then some value
  else if secUnits.contains unit then some (value * 1000 % U64)
  else if minUnits.contains unit then some (value * 60 * 1000 % U64)
  else if hourUnits.contains unit then some (value * 60 * 60 * 1000 % U64)
  else none

/-- Decimal digit characters of `n`, most significant first, with a
structural fuel argument (any `fuel > n` is sufficient). -/
def decDigitsFuel : Nat → Nat → List Char
  | 0, _ => []
  | fuel + 1, n =>
      if n < 10 then [Char.ofNat (48 + n)]
      else decDigitsFuel fuel (n / 10) ++ [Char.ofNat (48 + n % 10)]

/-- `std::to_string` on an unsigned integer: its decimal digits. -/
def natToString (n : Nat) : String := String.mk (decDigitsFuel (n + 1) n)

/-- `formatTime` from `time_utils.h`: print in the largest unit whose
threshold the value reaches, truncating with integer division. -/
def formatTime (ms : Nat) : String :=
  if ms < 1000 then natToString ms ++ "ms"
  else if ms < 60000 then natToString (ms / 1000) ++ "s"
  else if ms < 3600000 then natToString (ms / 60000) ++ "m"
  else natToString (ms / 3600000) ++ "h"

/-- The value `formatTime` actually displays: the input truncated to a
whole number of its display unit. -/
def displayTrunc (v : Nat) : Nat :=
  if v < 1000 then v
  else if v < 60000 then v / 1000 * 1000
  else if v < 3600000 then v / 60000 * 60000
  else v / 3600000 * 3600000

/-! ### Consumer detector (`consumer_detector.h`) -/

/-- `ConsumerDetector::checkSysfs`: `sysfsRead = some c` models a
counter pseudo-file being found with `c` extracted from it by
`operator>>` (a failed extraction value-initializes to 0, so `c` is
whatever integer the stream produced); `none` models no counter file,
for which the method returns the sentinel `-1`. -/
def checkSysfs (sysfsRead : Option Int) : Int :=
  match sysfsRead with
  | some c => c
  | none => -1

/-- `ConsumerDetector::hasConsumers`: a non-negative sysfs count `c`
answers `c > 1` (subtracting our own writer); otherwise fall back to
the `/proc` file-descriptor scan, whose verdict is `procFdMatch`. -/
def hasConsumers (sysfsRead : Option Int) (procFdMatch : Bool) : Bool :=
  let sysfsCount := checkSysfs sysfsRead
  if sysfsCount ≥ 0 then decide (sysfsCount > 1) else procFdMatch

/-- `ConsumerDetector::getConsumerCount`: a non-negative sysfs count
`c` answers `max(0, c - 1)`; otherwise the `/proc` scan count. -/
def getConsumerCount (sysfsRead : Option Int) (procFdCount : Int) : Int :=
  let sysfsCount := checkSysfs sysfsRead
  if sysfsCount ≥ 0 then max 0 (sysfsCount - 1) else procFdCount

/-! ### Virtual output (`virtual_output.cpp`) -/

/-- The dimensions of a `cv::Mat` frame (`rows`/`cols` are C++ `int`,
never negative for a real matrix). -/
structure MatFrame where
  rows : Int
  cols : Int
deriving DecidableEq, Repr

/-- `cv::Mat::empty()`: no elements. -/
def MatFrame.isEmpty (f : MatFrame) : Bool := f.rows * f.cols == 0

/-- The fields of `VirtualOutput` relevant to `writeFrame`: the device
file descriptor and the negotiated output width and height. -/
structure VirtualOutput where
  fd : Int
  width : Int
  height : Int
deriving DecidableEq, Repr

/-- What one `VirtualOutput::writeFrame` call did. -/
inductive WriteOutcome where
  /-- Returned at the guard without converting or writing anything. -/
  | skipped
  /-- Converted a frame of the given dimensions to YUYV and wrote it. -/
  | wrote (cols rows : Int)
deriving DecidableEq, Repr

/-- `VirtualOutput::writeFrame` (virtual_output.cpp lines 67-96):
return silently when the device is not open or the frame is empty;
otherwise resize to the negotiated `width_ × height_` when the
dimensions differ, convert to YUYV and write. -/
def writeFrame (o : VirtualOutput) (frame : MatFrame) : WriteOutcome :=
  if o.fd < 0 || frame.isEmpty then .skipped
  else
    let resized : MatFrame :=
      if frame.cols != o.width || frame.rows != o.height then
        { rows := o.height, cols := o.width }
      else frame
    .wrote resized.cols resized.rows

/-! ### Resolution selection (`camera_capture.cpp` / part_004) -/

/-- `struct ResolutionMode` from `camera_capture.h`. -/
structure ResolutionMode where
  width : Int
  height : Int
deriving DecidableEq, Repr

/-- Pixel area, the key `ResolutionMode::operator<` compares. -/
def ResolutionMode.area (m : ResolutionMode) : Int := m.width * m.height

/-- The selection part of `CameraCapture::setResolution`, applied to
the mode list `queryResolutions` returns (a vector sorted ascending by
pixel area, since it is built through `std::set<ResolutionMode>` and
`std::sort` over `operator<`, which compares `width*height`): an empty
query fails; `LOW` takes `front()`, `HIGH` takes `back()`, `MEDIUM`
takes `back()` when at most two modes exist and otherwise the element
at index `(count + 1) / 2 - 1`. -/
def selectResolution (resolutions : List ResolutionMode) (resPref : Resolution) :
    Option ResolutionMode :=
  if resolutions.isEmpty then none
  else
    let count := resolutions.length
    match resPref with
    | .low => resolutions.head?
    | .high => resolutions.getLast?
    | .medium =>
        if count ≤ 2 then resolutions.getLast?
        else resolutions.get? ((count + 1) / 2 - 1)

/-! ### Invariants of the loop state -/

/-- The handle/state invariant claimed for tick boundaries: the
physical capture handle is open exactly in `ACTIVE`, and `CONNECTING`
never survives to a tick boundary (it resolves within its own tick). -/
def cameraInv (s : LoopState) : Prop :=
  (s.cameraOpen = true ↔ s.cameraState = .active) ∧ s.cameraState ≠ .connecting

/-- Intermediate obligation after the consumer block: away from the
transient `CONNECTING`, the handle is open exactly in `ACTIVE`. -/
def cameraPre (s : LoopState) : Prop :=
  s.cameraState ≠ .connecting → (s.cameraOpen = true ↔ s.cameraState = .active)

/-- The latched-terminal configuration of the effect sequencer. -/
def effectDone (s : LoopState) : Prop :=
  s.effectsFinished = true ∧ s.effectState = .passthrough

/-- Concrete configuration used to exhibit a capture-failure run:
test mode (the effect fires immediately), on-demand, short static
phase, long matrix phase. -/
def cfgCapFail : Config :=
  { testMode := true, onDemand := true, staticDuration := 10, effectDuration := 100000 }

/-- Concrete four-tick trace: a consumer connects and the camera opens
(tick 1), the effect triggers (tick 2), static elapses into the matrix
phase (tick 3), and then a capture read fails mid-matrix (tick 4). -/
def traceCapFail : List TickInput :=
  [⟨0, true, true, false, 0⟩, ⟨100, true, true, false, 0⟩,
   ⟨200, true, true, false, 0⟩, ⟨300, true, true, true, 0⟩]

/-- A concrete `ACTIVE` state whose sequencer is mid-sequence in the
matrix phase (fields in declaration order: camera state, handle open,
poll clock, previous consumer flag, effect state, next effect time,
timer armed, phase start, cycle count, finished flag). -/
def stMidMatrix : LoopState := ⟨.active, true, 0, true, .matrix, 0, true, 0, 0, false⟩

/-- A concrete `ACTIVE` state mid-sequence in the static phase. -/
def stMidStatic : LoopState := ⟨.active, true, 0, true, .staticFx, 0, true, 0, 2, false⟩

/-- A concrete `ACTIVE` state in passthrough with the cycle budget
already exhausted and `effectsFinished` latched. -/
def stLatched : LoopState := ⟨.active, true, 0, true, .passthrough, 5, true, 0, 1, true⟩

/-- A concrete `UNAVAILABLE` state polling for the camera. -/
def stPolling : LoopState := ⟨.unavailable, false, 400, true, .passthrough, 0, true, 0, 0, false⟩

/-- The all-defaults configuration of `config.h`. -/
def defaultConfig : Config := {}

/-!
## Theorems
-/

theorem armTimer_cameraState (cfg : Config) (s : LoopState) (now r : Nat) :
    (armTimer cfg s now r).cameraState = s.cameraState := by
  unfold armTimer; split <;> rfl

theorem armTimer_cameraOpen (cfg : Config) (s : LoopState) (now r : Nat) :
    (armTimer cfg s now r).cameraOpen = s.cameraOpen := by
  unfold armTimer; split <;> rfl

theorem armTimer_effectState (cfg : Config) (s : LoopState) (now r : Nat) :
    (armTimer cfg s now r).effectState = s.effectState := by
  unfold armTimer; split <;> rfl

theorem armTimer_effectsFinished (cfg : Config) (s : LoopState) (now r : Nat) :
    (armTimer cfg s now r).effectsFinished = s.effectsFinished := by
  unfold armTimer; split <;> rfl

theorem armTimer_stateStartTime (cfg : Config) (s : LoopState) (now r : Nat) :
    (armTimer cfg s now r).stateStartTime = s.stateStartTime := by
  unfold armTimer; split <;> rfl

theorem armTimer_cycleCount (cfg : Config) (s : LoopState) (now r : Nat) :
    (armTimer cfg s now r).cycleCount = s.cycleCount := by
  unfold armTimer; split <;> rfl

theorem armTimer_initialized (cfg : Config) (s : LoopState) (now r : Nat) :
    (armTimer cfg s now r).effectTimerInitialized = true ∨
    (armTimer cfg s now r) = s := by
  unfold armTimer; split
  · exact .inl rfl
  · exact .inr rfl

theorem effectStep_cameraState (cfg : Config) (s : LoopState) (now r : Nat) :
    (effectStep cfg s now r).1.cameraState = s.cameraState := by
  unfold effectStep
  cases s.effectState <;> dsimp only <;> split <;> try rfl
  split <;> rfl

theorem effectStep_cameraOpen (cfg : Config) (s : LoopState) (now r : Nat) :
    (effectStep cfg s now r).1.cameraOpen = s.cameraOpen := by
  unfold effectStep
  cases s.effectState <;> dsimp only <;> split <;> try rfl
  split <;> rfl

theorem consumerStep_pre (cfg : Config) (s : LoopState) (b : Bool)
    (h : cameraInv s) : cameraPre (consumerStep cfg s b) := by
  obtain ⟨h1, _⟩ := h
  unfold consumerStep cameraPre
  split
  · split
    · intro hc; exact absurd rfl hc
    · split
      · intro _; simp
      · intro _; simpa using h1
  · intro _; exact h1

theorem cameraStep_inv (cfg : Config) (s : LoopState) (inp : TickInput)
    (h : cameraPre s) : cameraInv (cameraStep cfg s inp).1 := by
  cases hcs : s.cameraState with
  | idle =>
      have h1 := h (by simp [hcs])
      simp only [cameraStep, hcs, cameraInv]
      simp [hcs] at h1
      simp [h1, hcs]
  | connecting =>
      by_cases ho : inp.openSucceeds <;>
        simp [cameraStep, hcs, ho, cameraInv]
  | unavailable =>
      have h1 := h (by simp [hcs])
      simp [hcs] at h1
      by_cases hdue : u64sub inp.currentTime s.lastCameraPollTime ≥ cfg.cameraPollInterval
      · by_cases ho : inp.openSucceeds <;>
          simp [cameraStep, hcs, hdue, ho, cameraInv]
      · simp [cameraStep, hcs, hdue, cameraInv, h1]
  | active =>
      have h1 := h (by simp [hcs])
      simp [hcs] at h1
      by_cases hce : inp.captureEmpty
      · simp [cameraStep, hcs, hce, cameraInv]
      · simp [cameraStep, hcs, hce, cameraInv, effectStep_cameraOpen,
              effectStep_cameraState, armTimer_cameraOpen, armTimer_cameraState, h1]

theorem cameraInv_tickS (cfg : Config) (s : LoopState) (inp : TickInput)
    (h : cameraInv s) : cameraInv (tickS cfg s inp) :=
  cameraStep_inv cfg _ inp (consumerStep_pre cfg s inp.hasConsumers h)

theorem cameraInv_initState (cfg : Config) : cameraInv (initState cfg) := by
  unfold cameraInv initState
  cases cfg.onDemand <;> simp

theorem cameraInv_run (cfg : Config) (s : LoopState) (l : List TickInput)
    (h : cameraInv s) : cameraInv (run cfg s l) := by
  induction l generalizing s with
  | nil => exact h
  | cons a t ih => exact ih _ (cameraInv_tickS cfg s a h)

/-- C2: at every tick boundary of the main loop, the physical capture
handle is open if and only if the camera lifecycle state is `ACTIVE`
(so `IDLE` and `UNAVAILABLE` never hold the handle and `ACTIVE` always
does), and the transient `CONNECTING` state never survives to a tick
boundary — it is resolved by the open attempt within its own tick. -/
theorem camera_handle_open_iff_active (cfg : Config) (l : List TickInput) :
    ((run cfg (initState cfg) l).cameraOpen = true ↔
      (run cfg (initState cfg) l).cameraState = CameraState.active) ∧
    (run cfg (initState cfg) l).cameraState ≠ CameraState.connecting :=
  cameraInv_run cfg (initState cfg) l (cameraInv_initState cfg)

theorem armTimer_effectTimerInitialized (cfg : Config) (s : LoopState) (now r : Nat) :
    (armTimer cfg s now r).effectTimerInitialized = true := by
  unfold armTimer
  split
  · rfl
  · next h => simpa using h

theorem consumerStep_id (cfg : Config) (s : LoopState) (b : Bool)
    (h : cfg.onDemand = true → b = s.hadConsumers) : consumerStep cfg s b = s := by
  obtain ⟨c1, c2, c3, c4, c5, c6, c7, c8, c9, c10⟩ := s
  unfold consumerStep
  split
  · next hod =>
      have hb := h hod
      subst hb
      cases b <;> simp
  · rfl

theorem effectStep_of_done (cfg : Config) (s : LoopState) (now r : Nat)
    (hf : s.effectsFinished = true) (hp : s.effectState = EffectState.passthrough) :
    effectStep cfg s now r = (s, FrameSource.cameraFrame) := by
  unfold effectStep
  rw [hp]
  simp [hf]

theorem effectDone_consumerStep (cfg : Config) (s : LoopState) (b : Bool)
    (h : effectDone s) : effectDone (consumerStep cfg s b) := by
  obtain ⟨h1, h2⟩ := h
  unfold consumerStep effectDone
  split
  · split
    · simp [h1, h2]
    · split <;> simp [h1, h2]
  · exact ⟨h1, h2⟩

theorem effectDone_cameraStep (cfg : Config) (s : LoopState) (inp : TickInput)
    (h : effectDone s) : effectDone (cameraStep cfg s inp).1 := by
  obtain ⟨h1, h2⟩ := h
  cases hcs : s.cameraState with
  | idle => simp [cameraStep, hcs, effectDone, h1, h2]
  | connecting =>
      by_cases ho : inp.openSucceeds <;> simp [cameraStep, hcs, ho, effectDone, h1, h2]
  | unavailable =>
      by_cases hdue : u64sub inp.currentTime s.lastCameraPollTime ≥ cfg.cameraPollInterval
      · by_cases ho : inp.openSucceeds <;>
          simp [cameraStep, hcs, hdue, ho, effectDone, h1, h2]
      · simp [cameraStep, hcs, hdue, effectDone, h1, h2]
  | active =>
      have ha1 : (armTimer cfg s inp.currentTime inp.rand).effectsFinished = true := by
        rw [armTimer_effectsFinished]; exact h1
      have ha2 : (armTimer cfg s inp.currentTime inp.rand).effectState =
          EffectState.passthrough := by
        rw [armTimer_effectState]; exact h2
      by_cases hce : inp.captureEmpty
      · simp [cameraStep, hcs, hce, effectDone, ha1, ha2]
      · simp [cameraStep, hcs, hce, effectDone,
              effectStep_of_done cfg _ inp.currentTime inp.rand ha1 ha2, ha1, ha2]

theorem effectDone_tickS (cfg : Config) (s : LoopState) (inp : TickInput)
    (h : effectDone s) : effectDone (tickS cfg s inp) :=
  effectDone_cameraStep cfg _ inp (effectDone_consumerStep cfg s inp.hasConsumers h)

theorem effectDone_run (cfg : Config) (s : LoopState) (l : List TickInput)
    (h : effectDone s) : effectDone (run cfg s l) := by
  induction l generalizing s with
  | nil => exact h
  | cons a t ih => exact ih _ (effectDone_tickS cfg s a h)

/-- C3: with a positive cycle budget, the tick on which the matrix
(substitute) phase ends with `cycleCount` reaching `cycles` latches
`effectsFinished` and returns the sequencer to `PASSTHROUGH`; and from
any such latched state, every further run — whatever the consumer,
camera, clock or entropy inputs — keeps `effectsFinished` true and the
sequencer in `PASSTHROUGH`, so the `STATIC` and `MATRIX` states are
never entered again before process restart. -/
theorem effectsFinished_latch_permanent (cfg : Config) (hcy : cfg.cycles > 0) :
    (∀ (s : LoopState) (inp : TickInput), s.cameraState = CameraState.active →
      (cfg.onDemand = true → inp.hasConsumers = s.hadConsumers) →
      inp.captureEmpty = false →
      s.effectState = EffectState.matrix →
      u64sub inp.currentTime s.stateStartTime ≥ cfg.effectDuration →
      s.cycleCount + 1 ≥ cfg.cycles →
      (tickS cfg s inp).effectsFinished = true ∧
      (tickS cfg s inp).effectState = EffectState.passthrough ∧
      (tickS cfg s inp).cycleCount = s.cycleCount + 1) ∧
    (∀ (s : LoopState) (l : List TickInput),
      s.effectsFinished = true → s.effectState = EffectState.passthrough →
      (run cfg s l).effectsFinished = true ∧
      (run cfg s l).effectState = EffectState.passthrough) := by
  constructor
  · intro s inp hact hnc hce hmx hdur hcnt
    have hid : consumerStep cfg s inp.hasConsumers = s :=
      consumerStep_id cfg s inp.hasConsumers hnc
    have hm : (armTimer cfg s inp.currentTime inp.rand).effectState =
        EffectState.matrix := by rw [armTimer_effectState]; exact hmx
    unfold tickS tick
    rw [hid]
    simp only [cameraStep, hact, hce]
    unfold effectStep
    rw [hm]
    simp only [armTimer_stateStartTime, armTimer_cycleCount, hdur, if_pos, ite_true]
    have : (decide (cfg.cycles > 0) && decide (s.cycleCount + 1 ≥ cfg.cycles)) = true := by
      simp [hcy, hcnt]
    simp [this, armTimer_cycleCount]
  · intro s l h1 h2
    exact effectDone_run cfg s l ⟨h1, h2⟩

/-- Witness for `effectsFinished_latch_permanent` at a concrete latched
state and a concrete two-tick continuation. -/
theorem effectsFinished_latch_permanent_witness :
    (run { cycles := 1 } stLatched
        [⟨10, true, true, false, 0⟩, ⟨20, false, true, false, 0⟩]).effectsFinished = true ∧
    (run { cycles := 1 } stLatched
        [⟨10, true, true, false, 0⟩, ⟨20, false, true, false, 0⟩]).effectState =
      EffectState.passthrough :=
  (effectsFinished_latch_permanent { cycles := 1 } (by decide)).2
    stLatched _ rfl rfl

/-- C1 counterexample: a concrete run in which the camera leaves
`ACTIVE` because a capture read fails while the sequencer is
mid-sequence (in the matrix phase), yet the sequence progress is NOT
discarded: `effectTimerInitialized` stays `true` and the effect state
stays `MATRIX` instead of returning to `PASSTHROUGH`. -/
theorem capture_failure_keeps_sequence_progress_cx :
    (run cfgCapFail (initState cfgCapFail) (traceCapFail.take 3)).cameraState =
      CameraState.active ∧
    (run cfgCapFail (initState cfgCapFail) (traceCapFail.take 3)).effectState =
      EffectState.matrix ∧
    (run cfgCapFail (initState cfgCapFail) traceCapFail).cameraState =
      CameraState.unavailable ∧
    (run cfgCapFail (initState cfgCapFail) traceCapFail).effectTimerInitialized = true ∧
    (run cfgCapFail (initState cfgCapFail) traceCapFail).effectState =
      EffectState.matrix := by
  decide

/-- C1 amended: only the consumer-disconnect exit from `ACTIVE`
discards the sequence progress (clearing `effectTimerInitialized` and
returning the sequencer to `PASSTHROUGH`); the capture-read-failure
exit leaves the effect state, the armed timer flag and `cycleCount`
untouched, so an interrupted partial cycle is resumed — and later
counted — once the camera becomes `ACTIVE` again. -/
theorem sequence_progress_discarded_only_on_disconnect
    (cfg : Config) (s : LoopState) (inp : TickInput) :
    (cfg.onDemand = true → s.hadConsumers = true → inp.hasConsumers = false →
      (tickS cfg s inp).effectTimerInitialized = false ∧
      (tickS cfg s inp).effectState = EffectState.passthrough ∧
      (tickS cfg s inp).cameraState = CameraState.idle) ∧
    (s.cameraState = CameraState.active →
      (cfg.onDemand = true → inp.hasConsumers = s.hadConsumers) →
      inp.captureEmpty = true →
      (tickS cfg s inp).cameraState = CameraState.unavailable ∧
      (tickS cfg s inp).effectState = s.effectState ∧
      (tickS cfg s inp).effectTimerInitialized = true ∧
      (tickS cfg s inp).cycleCount = s.cycleCount) := by
  constructor
  · intro hod hhad hhas
    simp [tickS, tick, consumerStep, cameraStep, hod, hhad, hhas]
  · intro hact hnc hce
    have hid : consumerStep cfg s inp.hasConsumers = s :=
      consumerStep_id cfg s inp.hasConsumers hnc
    unfold tickS tick
    rw [hid]
    simp [cameraStep, hact, hce, armTimer_effectState, armTimer_cycleCount,
          armTimer_effectTimerInitialized]

/-- Witness for `sequence_progress_discarded_only_on_disconnect`,
exercising both arms at concrete states. -/
theorem sequence_progress_discarded_only_on_disconnect_witness :
    ((tickS defaultConfig stMidMatrix ⟨100, false, false, false, 0⟩).effectTimerInitialized
        = false ∧
     (tickS defaultConfig stMidMatrix ⟨100, false, false, false, 0⟩).effectState
        = EffectState.passthrough ∧
     (tickS defaultConfig stMidMatrix ⟨100, false, false, false, 0⟩).cameraState
        = CameraState.idle) ∧
    ((tickS defaultConfig stMidMatrix ⟨100, true, false, true, 0⟩).cameraState
        = CameraState.unavailable ∧
     (tickS defaultConfig stMidMatrix ⟨100, true, false, true, 0⟩).effectState
        = stMidMatrix.effectState) := by
  refine ⟨(sequence_progress_discarded_only_on_disconnect defaultConfig stMidMatrix
    ⟨100, false, false, false, 0⟩).1 rfl rfl rfl, ?_, ?_⟩
  · exact ((sequence_progress_discarded_only_on_disconnect defaultConfig stMidMatrix
      ⟨100, true, false, true, 0⟩).2 rfl (fun _ => rfl) rfl).1
  · exact ((sequence_progress_discarded_only_on_disconnect defaultConfig stMidMatrix
      ⟨100, true, false, true, 0⟩).2 rfl (fun _ => rfl) rfl).2.1

/-- C7: the consumer-presence block runs before the camera and effect
processing of the same tick; on a disconnect tick (previous tick had
consumers, this tick has none) the session is fully idled — capture
handle closed, camera state `IDLE`, effect timer flag cleared,
sequencer reset to `PASSTHROUGH` — and the tick emits the filler
static visual without ever invoking a capture (regardless of whether
the capture would also have failed), without touching `cycleCount` or
`effectsFinished`. -/
theorem consumer_disconnect_idles_session (cfg : Config) (s : LoopState)
    (inp : TickInput) (hod : cfg.onDemand = true)
    (hhad : s.hadConsumers = true) (hhas : inp.hasConsumers = false) :
    (tickS cfg s inp).cameraState = CameraState.idle ∧
    (tickS cfg s inp).cameraOpen = false ∧
    (tickS cfg s inp).effectTimerInitialized = false ∧
    (tickS cfg s inp).effectState = EffectState.passthrough ∧
    (tickR cfg s inp).captured = false ∧
    (tickR cfg s inp).frame = FrameSource.staticNoise ∧
    (tickS cfg s inp).cycleCount = s.cycleCount ∧
    (tickS cfg s inp).effectsFinished = s.effectsFinished := by
  simp [tickS, tickR, tick, consumerStep, cameraStep, hod, hhad, hhas]

/-- Witness for `consumer_disconnect_idles_session` at a concrete
mid-effect state whose capture would also have failed this tick. -/
theorem consumer_disconnect_idles_session_witness :
    (tickS defaultConfig stMidStatic ⟨500, false, false, true, 7⟩).cameraState
      = CameraState.idle ∧
    (tickR defaultConfig stMidStatic ⟨500, false, false, true, 7⟩).captured = false :=
  ⟨(consumer_disconnect_idles_session defaultConfig stMidStatic
      ⟨500, false, false, true, 7⟩ rfl rfl rfl).1,
   (consumer_disconnect_idles_session defaultConfig stMidStatic
      ⟨500, false, false, true, 7⟩ rfl rfl rfl).2.2.2.2.1⟩

/-- C8: a capture read returning an empty frame while `ACTIVE` closes
the handle the same tick, emits the filler static visual for this tick,
and moves to `UNAVAILABLE` with the poll clock stamped to now; from
`UNAVAILABLE`, every later tick either waits (state unchanged) or,
once the fixed interval `cameraPollInterval` has elapsed, retries the
open — forever, with the same constant threshold, returning to
`ACTIVE` exactly when an attempt succeeds.  No branch terminates the
loop: the failure is never fatal and the retry interval never grows. -/
theorem capture_failure_recoverable (cfg : Config) (s : LoopState)
    (inp : TickInput) (hact : s.cameraState = CameraState.active)
    (hnc : cfg.onDemand = true → inp.hasConsumers = s.hadConsumers)
    (hemp : inp.captureEmpty = true) :
    ((tickS cfg s inp).cameraState = CameraState.unavailable ∧
     (tickS cfg s inp).cameraOpen = false ∧
     (tickS cfg s inp).lastCameraPollTime = inp.currentTime ∧
     (tickR cfg s inp).frame = FrameSource.staticNoise) ∧
    (∀ (s2 : LoopState) (inp2 : TickInput),
      s2.cameraState = CameraState.unavailable →
      (cfg.onDemand = true → inp2.hasConsumers = s2.hadConsumers) →
      (u64sub inp2.currentTime s2.lastCameraPollTime ≥ cfg.cameraPollInterval →
        (tickS cfg s2 inp2).cameraState =
          (if inp2.openSucceeds then CameraState.active else CameraState.unavailable) ∧
        (tickS cfg s2 inp2).lastCameraPollTime = inp2.currentTime) ∧
      (¬ u64sub inp2.currentTime s2.lastCameraPollTime ≥ cfg.cameraPollInterval →
        tickS cfg s2 inp2 = s2)) := by
  constructor
  · have hid : consumerStep cfg s inp.hasConsumers = s :=
      consumerStep_id cfg s inp.hasConsumers hnc
    unfold tickS tickR tick
    rw [hid]
    simp [cameraStep, hact, hemp]
  · intro s2 inp2 hun hnc2
    have hid2 : consumerStep cfg s2 inp2.hasConsumers = s2 :=
      consumerStep_id cfg s2 inp2.hasConsumers hnc2
    constructor
    · intro hdue
      unfold tickS tick
      rw [hid2]
      by_cases ho : inp2.openSucceeds <;> simp [cameraStep, hun, hdue, ho]
    · intro hdue
      unfold tickS tick
      rw [hid2]
      simp [cameraStep, hun, hdue]

/-- Witness for `capture_failure_recoverable`: a concrete failing
capture tick, plus a successful retry tick past the poll interval. -/
theorem capture_failure_recoverable_witness :
    (tickS defaultConfig stMidMatrix ⟨400, true, false, true, 0⟩).cameraState
      = CameraState.unavailable ∧
    (tickS defaultConfig stPolling ⟨1500, true, true, false, 0⟩).cameraState
      = CameraState.active := by
  constructor
  · exact (capture_failure_recoverable defaultConfig stMidMatrix
      ⟨400, true, false, true, 0⟩ rfl (fun _ => rfl) rfl).1.1
  · have h := ((capture_failure_recoverable defaultConfig stMidMatrix
      ⟨400, true, false, true, 0⟩ rfl (fun _ => rfl) rfl).2
      stPolling ⟨1500, true, true, false, 0⟩ rfl (fun _ => rfl)).1 (by decide)
    simpa using h.1

/-- C5: after the configuration-time validation (`minInterval` raised
to at least 1 and `maxInterval` raised to at least `minInterval`),
every interval `randomIntervalMs` draws lies in the closed range
`[minInterval, maxInterval]` and every value of that range is
attainable (the draw is inclusive of both bounds); hence every armed
`nextEffectTime = now + draw` — computed by the code as the `uint64_t`
sum `u64add` — lies in `[now + minInterval, now + maxInterval]`. -/
theorem randomInterval_within_validated_bounds (c : Config) (now r : Nat) :
    (1 ≤ (validateConfig c).minInterval ∧
     (validateConfig c).minInterval ≤ (validateConfig c).maxInterval) ∧
    ((validateConfig c).minInterval ≤
       randomIntervalMs (validateConfig c).minInterval (validateConfig c).maxInterval r ∧
     randomIntervalMs (validateConfig c).minInterval (validateConfig c).maxInterval r ≤
       (validateConfig c).maxInterval) ∧
    (∀ x, (validateConfig c).minInterval ≤ x → x ≤ (validateConfig c).maxInterval →
      ∃ r2, randomIntervalMs (validateConfig c).minInterval
              (validateConfig c).maxInterval r2 = x) ∧
    (now + (validateConfig c).maxInterval < U64 →
      now + (validateConfig c).minInterval ≤
        u64add now (randomIntervalMs (validateConfig c).minInterval
          (validateConfig c).maxInterval r) ∧
      u64add now (randomIntervalMs (validateConfig c).minInterval
          (validateConfig c).maxInterval r) ≤
        now + (validateConfig c).maxInterval) := by
  set v := validateConfig c with hv
  have hb : 1 ≤ v.minInterval ∧ v.minInterval ≤ v.maxInterval := by
    rw [hv]
    unfold validateConfig
    dsimp only
    split_ifs <;> simp_all <;> omega
  have hdraw : ∀ r', v.minInterval ≤ randomIntervalMs v.minInterval v.maxInterval r' ∧
      randomIntervalMs v.minInterval v.maxInterval r' ≤ v.maxInterval := by
    intro r'
    unfold randomIntervalMs
    have hm : r' % (v.maxInterval - v.minInterval + 1) < v.maxInterval - v.minInterval + 1 :=
      Nat.mod_lt _ (Nat.succ_pos _)
    omega
  refine ⟨hb, hdraw r, ?_, ?_⟩
  · intro x hx1 hx2
    refine ⟨x - v.minInterval, ?_⟩
    unfold randomIntervalMs
    rw [Nat.mod_eq_of_lt (by omega)]
    omega
  · intro hlt
    have h1 := hdraw r
    have heq : u64add now (randomIntervalMs v.minInterval v.maxInterval r) =
        now + randomIntervalMs v.minInterval v.maxInterval r := by
      unfold u64add
      exact Nat.mod_eq_of_lt (by omega)
    rw [heq]
    omega

/-- Witness for `randomInterval_within_validated_bounds`: the
surjectivity and the `nextEffectTime` bound instantiated at a concrete
configuration, entropy and clock. -/
theorem randomInterval_within_validated_bounds_witness :
    (∃ r2, randomIntervalMs (validateConfig defaultConfig).minInterval
        (validateConfig defaultConfig).maxInterval r2 = 120000) ∧
    (1000 + (validateConfig defaultConfig).minInterval ≤
       u64add 1000 (randomIntervalMs (validateConfig defaultConfig).minInterval
         (validateConfig defaultConfig).maxInterval 77) ∧
     u64add 1000 (randomIntervalMs (validateConfig defaultConfig).minInterval
         (validateConfig defaultConfig).maxInterval 77) ≤
       1000 + (validateConfig defaultConfig).maxInterval) :=
  ⟨(randomInterval_within_validated_bounds defaultConfig 1000 77).2.2.1 120000
      (by decide) (by decide),
   (randomInterval_within_validated_bounds defaultConfig 1000 77).2.2.2 (by decide)⟩

/-- C6 counterexample: when the counter pseudo-file is found but the
stream extraction yields the negative value `-1`, `hasConsumers` does
not answer `c - 1 > 0` (which is false): it is indistinguishable from
the not-found sentinel and falls through to the `/proc` scan, which may
answer `true`. -/
theorem sysfs_negative_count_cx :
    hasConsumers (some (-1)) true = true ∧ ¬((-1 : Int) - 1 > 0) := by
  decide

/-- C6 amended: whenever the kernel counter probe finds a counter file
and reads a non-negative value `c`, `hasConsumers()` answers exactly
`c - 1 > 0` and `getConsumerCount()` answers `max 0 (c - 1)`,
independent of the `/proc` fallback; in particular `c = 1` gives no
consumers and `c = 2` gives consumers with count 1.  (A negative read
value is treated like the not-found sentinel and defers to the `/proc`
scan.) -/
theorem sysfs_count_semantics (c : Int) (procFd : Bool) (procCnt : Int)
    (hc : 0 ≤ c) :
    (hasConsumers (some c) procFd = true ↔ c - 1 > 0) ∧
    getConsumerCount (some c) procCnt = max 0 (c - 1) ∧
    hasConsumers (some 1) procFd = false ∧
    hasConsumers (some 2) procFd = true ∧
    getConsumerCount (some 2) procCnt = 1 := by
  refine ⟨?_, ?_, by simp [hasConsumers, checkSysfs],
    by simp [hasConsumers, checkSysfs], by simp [getConsumerCount, checkSysfs]⟩
  · simp only [hasConsumers, checkSysfs, if_pos hc, decide_eq_true_eq]
    omega
  · simp [getConsumerCount, checkSysfs, hc]

/-- Witness for `sysfs_count_semantics` at the concrete read value 3
with a `/proc` fallback that would have disagreed. -/
theorem sysfs_count_semantics_witness :
    (hasConsumers (some 3) false = true ↔ (3 : Int) - 1 > 0) ∧
    getConsumerCount (some 3) 0 = max 0 ((3 : Int) - 1) :=
  ⟨(sysfs_count_semantics 3 false 0 (by decide)).1,
   (sysfs_count_semantics 3 false 0 (by decide)).2.1⟩

/-- C9: `VirtualOutput::writeFrame` silently does nothing when the
output descriptor is not open (`fd < 0`) or the frame is empty — it
returns at the guard without writing and raises no error; in every
other case the frame it converts and writes has exactly the negotiated
output dimensions `width_ × height_`, whether scaling was needed or the
frame already matched. -/
theorem writeFrame_negotiated_or_skipped (o : VirtualOutput) (f : MatFrame) :
    ((o.fd < 0 ∨ f.isEmpty = true) → writeFrame o f = WriteOutcome.skipped) ∧
    (0 ≤ o.fd → f.isEmpty = false →
      writeFrame o f = WriteOutcome.wrote o.width o.height) := by
  constructor
  · intro h
    unfold writeFrame
    rcases h with h | h
    · simp [h]
    · simp [h]
  · intro hfd hne
    unfold writeFrame
    have hg : ¬ (o.fd < 0 ∨ f.isEmpty = true) := by
      rintro (h | h)
      · omega
      · rw [hne] at h; exact Bool.false_ne_true h
    rw [if_neg (by simpa using hg)]
    by_cases hdim : (f.cols != o.width || f.rows != o.height) = true
    · simp [hdim]
    · have h2 : f.cols = o.width ∧ f.rows = o.height := by
        simp only [Bool.or_eq_true, bne_iff_ne] at hdim
        push_neg at hdim
        exact hdim
      simp [hdim, h2.1, h2.2]

/-- Witness for `writeFrame_negotiated_or_skipped`: a closed output at
`fd = -1` skips, and an open output scales a mismatched frame to the
negotiated 640×480. -/
theorem writeFrame_negotiated_or_skipped_witness :
    writeFrame ⟨-1, 640, 480⟩ ⟨720, 1280⟩ = WriteOutcome.skipped ∧
    writeFrame ⟨4, 640, 480⟩ ⟨720, 1280⟩ = WriteOutcome.wrote 640 480 :=
  ⟨(writeFrame_negotiated_or_skipped ⟨-1, 640, 480⟩ ⟨720, 1280⟩).1 (by left; decide),
   (writeFrame_negotiated_or_skipped ⟨4, 640, 480⟩ ⟨720, 1280⟩).2 (by decide) (by decide)⟩

theorem head_area_le_of_sorted (a : ResolutionMode) (t : List ResolutionMode)
    (hs : List.Sorted (fun x y => x.area < y.area) (a :: t)) :
    ∀ m ∈ a :: t, a.area ≤ m.area := by
  intro m hm
  rcases List.mem_cons.mp hm with rfl | hm'
  · exact le_refl _
  · exact le_of_lt ((List.sorted_cons.mp hs).1 m hm')

theorem area_le_getLast_of_sorted :
    ∀ (rs : List ResolutionMode) (h : rs ≠ []),
      List.Sorted (fun a b => a.area < b.area) rs →
      ∀ m ∈ rs, m.area ≤ (rs.getLast h).area := by
  intro rs
  induction rs with
  | nil => intro h; cases h rfl
  | cons a t ih =>
      intro _ hs m hm
      cases t with
      | nil =>
          simp only [List.mem_singleton] at hm
          subst hm
          simp [List.getLast]
      | cons b u =>
          rw [List.getLast_cons (List.cons_ne_nil b u)]
          rcases List.mem_cons.mp hm with rfl | hm'
          · exact le_of_lt ((List.sorted_cons.mp hs).1 _
              (List.getLast_mem (List.cons_ne_nil b u)))
          · exact ih (List.cons_ne_nil b u) (List.sorted_cons.mp hs).2 m hm'

/-- C10 counterexample: on four modes of strictly increasing area,
`MEDIUM` selects the element at index `(4 + 1) / 2 - 1 = 1` — the
LOWER of the two middle modes — not the upper median at index
`4 / 2 = 2`, so the "upper-median" description is false for even
counts. -/
theorem medium_selects_lower_middle_cx :
    selectResolution [⟨1, 1⟩, ⟨2, 2⟩, ⟨3, 3⟩, ⟨4, 4⟩] Resolution.medium =
      some ⟨2, 2⟩ ∧
    ([⟨1, 1⟩, ⟨2, 2⟩, ⟨3, 3⟩, ⟨4, 4⟩] : List ResolutionMode).get? (4 / 2) =
      some ⟨3, 3⟩ ∧
    (⟨2, 2⟩ : ResolutionMode) ≠ ⟨3, 3⟩ ∧
    List.Sorted (fun a b : ResolutionMode => a.area < b.area)
      [⟨1, 1⟩, ⟨2, 2⟩, ⟨3, 3⟩, ⟨4, 4⟩] := by
  refine ⟨by decide, by decide, by decide, ?_⟩
  simp [List.sorted_cons, ResolutionMode.area]

/-- C10 amended: given a non-empty enumerated mode list, sorted
ascending by pixel area as `queryResolutions` produces it,
`setResolution` selects the smallest-area mode for `LOW`, the
largest-area mode for `HIGH`, and for `MEDIUM` the mode at index
`(count + 1) / 2 - 1` — the exact middle for odd counts and the lower
of the two middle modes for even counts — falling back to the
largest-area mode whenever only one or two modes are enumerated. -/
theorem selectResolution_by_area (rs : List ResolutionMode) (hne : rs ≠ [])
    (hs : List.Sorted (fun a b => a.area < b.area) rs) :
    (∃ m0, selectResolution rs Resolution.low = some m0 ∧
      ∀ m ∈ rs, m0.area ≤ m.area) ∧
    (∃ m1, selectResolution rs Resolution.high = some m1 ∧
      ∀ m ∈ rs, m.area ≤ m1.area) ∧
    (rs.length ≤ 2 →
      selectResolution rs Resolution.medium = selectResolution rs Resolution.high) ∧
    (2 < rs.length →
      selectResolution rs Resolution.medium = rs.get? ((rs.length + 1) / 2 - 1)) := by
  obtain ⟨a, t, rfl⟩ := List.exists_cons_of_ne_nil hne
  refine ⟨⟨a, ?_, head_area_le_of_sorted a t hs⟩,
    ⟨(a :: t).getLast (List.cons_ne_nil a t), ?_,
      area_le_getLast_of_sorted _ (List.cons_ne_nil a t) hs⟩, ?_, ?_⟩
  · simp [selectResolution]
  · simp [selectResolution, List.getLast?_eq_getLast_of_ne_nil (List.cons_ne_nil a t)]
  · intro hlen
    simp only [List.length_cons] at hlen
    simp [selectResolution, hlen]
  · intro hlen
    simp only [List.length_cons] at hlen
    have h2 : ¬ (a :: t).length ≤ 2 := by simp only [List.length_cons]; omega
    simp [selectResolution, h2]
    all_goals intro h
    all_goals omega

/-- Witness for `selectResolution_by_area` on a concrete sorted
five-mode list. -/
theorem selectResolution_by_area_witness :
    (∃ m0, selectResolution [⟨1, 1⟩, ⟨2, 2⟩, ⟨3, 3⟩, ⟨4, 4⟩, ⟨5, 5⟩] Resolution.low =
        some m0 ∧
      ∀ m ∈ ([⟨1, 1⟩, ⟨2, 2⟩, ⟨3, 3⟩, ⟨4, 4⟩, ⟨5, 5⟩] : List ResolutionMode),
        m0.area ≤ m.area) ∧
    selectResolution [⟨1, 1⟩, ⟨2, 2⟩, ⟨3, 3⟩, ⟨4, 4⟩, ⟨5, 5⟩] Resolution.medium =
      ([⟨1, 1⟩, ⟨2, 2⟩, ⟨3, 3⟩, ⟨4, 4⟩, ⟨5, 5⟩] : List ResolutionMode).get?
        ((5 + 1) / 2 - 1) := by
  have hs : List.Sorted (fun a b : ResolutionMode => a.area < b.area)
      [⟨1, 1⟩, ⟨2, 2⟩, ⟨3, 3⟩, ⟨4, 4⟩, ⟨5, 5⟩] := by
    simp [List.sorted_cons, ResolutionMode.area]
  exact ⟨(selectResolution_by_area _ (by simp) hs).1,
    (selectResolution_by_area _ (by simp) hs).2.2.2 (by simp)⟩

theorem toNat_ofNat_digit (d : Nat) (h : d < 10) :
    (Char.ofNat (48 + d)).toNat = 48 + d := by
  have hv : Nat.isValidChar (48 + d) := Or.inl (by omega)
  rw [Char.ofNat, dif_pos hv]
  rfl

theorem isDigitCh_digit (d : Nat) (h : d < 10) :
    isDigitCh (Char.ofNat (48 + d)) = true := by
  simp [isDigitCh, toNat_ofNat_digit d h]
  omega

theorem digitsToNat_append (xs : List Char) (c : Char) :
    digitsToNat (xs ++ [c]) = digitsToNat xs * 10 + (c.toNat - 48) := by
  unfold digitsToNat
  rw [List.foldl_append]
  rfl

theorem decDigitsFuel_spec : ∀ fuel n : Nat, n < fuel →
    decDigitsFuel fuel n ≠ [] ∧
    (∀ c ∈ decDigitsFuel fuel n, isDigitCh c = true) ∧
    digitsToNat (decDigitsFuel fuel n) = n := by
  intro fuel
  induction fuel with
  | zero => intro n h; omega
  | succ f ih =>
      intro n h
      by_cases h10 : n < 10
      · unfold decDigitsFuel
        rw [if_pos h10]
        refine ⟨by simp, ?_, ?_⟩
        · intro c hc
          simp only [List.mem_singleton] at hc
          subst hc
          exact isDigitCh_digit n h10
        · unfold digitsToNat
          simp only [List.foldl_cons, List.foldl_nil]
          rw [toNat_ofNat_digit n h10]
          omega
      · have hdivlt : n / 10 < n := Nat.div_lt_self (by omega) (by omega)
        obtain ⟨hne, hdig, hval⟩ := ih (n / 10) (by omega)
        unfold decDigitsFuel
        rw [if_neg h10]
        refine ⟨by simp, ?_, ?_⟩
        · intro c hc
          rcases List.mem_append.mp hc with hc | hc
          · exact hdig c hc
          · simp only [List.mem_singleton] at hc
            subst hc
            exact isDigitCh_digit (n % 10) (Nat.mod_lt _ (by omega))
        · rw [digitsToNat_append, hval, toNat_ofNat_digit (n % 10) (Nat.mod_lt _ (by omega))]
          omega

theorem takeWhile_append_not (p : Char → Bool) :
    ∀ (xs : List Char) (c : Char) (cs : List Char),
      (∀ x ∈ xs, p x = true) → p c = false →
      (xs ++ c :: cs).takeWhile p = xs ∧ (xs ++ c :: cs).dropWhile p = c :: cs := by
  intro xs
  induction xs with
  | nil =>
      intro c cs _ hc
      simp [List.takeWhile_cons, List.dropWhile_cons, hc]
  | cons a t ih =>
      intro c cs hall hc
      have ha : p a = true := hall a (by simp)
      obtain ⟨h1, h2⟩ := ih c cs (fun x hx => hall x (by simp [hx])) hc
      simp [List.takeWhile_cons, List.dropWhile_cons, ha, h1, h2]

theorem parseTime_digits_unit (n : Nat) (hn : n < U64) (c : Char) (cs : List Char)
    (hc : isDigitCh c = false) :
    parseTime (natToString n ++ String.mk (c :: cs)) =
      (if msUnits.contains (String.mk ((c :: cs).map toLowerCh)) then some n
       else if secUnits.contains (String.mk ((c :: cs).map toLowerCh)) then
         some (n * 1000 % U64)
       else if minUnits.contains (String.mk ((c :: cs).map toLowerCh)) then
         some (n * 60 * 1000 % U64)
       else if hourUnits.contains (String.mk ((c :: cs).map toLowerCh)) then
         some (n * 60 * 60 * 1000 % U64)
       else none) := by
  obtain ⟨hne, hdig, hval⟩ := decDigitsFuel_spec (n + 1) n (by omega)
  have hdata : (natToString n ++ String.mk (c :: cs)).data =
      decDigitsFuel (n + 1) n ++ c :: cs := by
    rw [String.data_append]
    rfl
  obtain ⟨htw, hdw⟩ := takeWhile_append_not isDigitCh (decDigitsFuel (n + 1) n) c cs hdig hc
  have h1 : (decDigitsFuel (n + 1) n ++ c :: cs).isEmpty = false := by
    cases decDigitsFuel (n + 1) n <;> rfl
  have h2 : (decDigitsFuel (n + 1) n).isEmpty = false := by
    cases hd : decDigitsFuel (n + 1) n with
    | nil => exact absurd hd hne
    | cons a t => rfl
  have h3 : ¬ U64 ≤ n := by omega
  simp only [parseTime, hdata, h1, htw, hdw, h2, hval, Bool.false_eq_true, if_false, h3,
    List.isEmpty_cons]

theorem parseTime_natToString_ms (n : Nat) (hn : n < U64) :
    parseTime (natToString n ++ "ms") = some n := by
  rw [show ("ms" : String) = String.mk ['m', 's'] from rfl,
      parseTime_digits_unit n hn 'm' ['s'] (by decide)]
  rw [if_pos (by decide)]

theorem parseTime_natToString_s (n : Nat) (hn : n < U64) :
    parseTime (natToString n ++ "s") = some (n * 1000 % U64) := by
  rw [show ("s" : String) = String.mk ['s'] from rfl,
      parseTime_digits_unit n hn 's' [] (by decide)]
  rw [if_neg (by decide), if_pos (by decide)]

theorem parseTime_natToString_m (n : Nat) (hn : n < U64) :
    parseTime (natToString n ++ "m") = some (n * 60 * 1000 % U64) := by
  rw [show ("m" : String) = String.mk ['m'] from rfl,
      parseTime_digits_unit n hn 'm' [] (by decide)]
  rw [if_neg (by decide), if_neg (by decide), if_pos (by decide)]

theorem parseTime_natToString_h (n : Nat) (hn : n < U64) :
    parseTime (natToString n ++ "h") = some (n * 60 * 60 * 1000 % U64) := by
  rw [show ("h" : String) = String.mk ['h'] from rfl,
      parseTime_digits_unit n hn 'h' [] (by decide)]
  rw [if_neg (by decide), if_neg (by decide), if_neg (by decide), if_pos (by decide)]

theorem parseTime_some_lt (s : String) (v : Nat) (h : parseTime s = some v) :
    v < U64 := by
  have hU : 0 < U64 := by decide
  simp only [parseTime] at h
  split_ifs at h with h1 h2 h3 h4 h5 h6 h7 h8 <;>
    first
      | exact Option.noConfusion h
      | (injection h with h; omega)
      | (injection h with h; subst h; exact Nat.mod_lt _ hU)

/-- C4 counterexample: the duration string `"1500"` is accepted by
`parseTime` with value 1500 ms, but `formatTime 1500 = "1s"` truncates
with integer division, and parsing it back yields 1000 ms, not 1500:
the round trip does not preserve the millisecond value. -/
theorem parse_format_roundtrip_cx :
    parseTime "1500" = some 1500 ∧
    formatTime 1500 = "1s" ∧
    (parseTime "1500").bind (fun v => parseTime (formatTime v)) = some 1000 := by
  decide

/-- C4 amended: for every duration string accepted by `parseTime` with
value `v`, parsing `formatTime v` back yields exactly `v` truncated to
a whole number of the display unit `formatTime` chose (`displayTrunc`);
the round trip preserves the millisecond value precisely when `v` is a
whole multiple of that unit (always for values below one second). -/
theorem parse_format_displayTrunc (s : String) (v : Nat)
    (h : parseTime s = some v) :
    parseTime (formatTime v) = some (displayTrunc v) := by
  have hv : v < U64 := parseTime_some_lt s v h
  unfold formatTime displayTrunc
  by_cases h1 : v < 1000
  · rw [if_pos h1, if_pos h1, parseTime_natToString_ms v hv]
  · rw [if_neg h1, if_neg h1]
    by_cases h2 : v < 60000
    · have hd : v / 1000 ≤ v := Nat.div_le_self v 1000
      have hm : v / 1000 * 1000 ≤ v := Nat.div_mul_le_self v 1000
      rw [if_pos h2, if_pos h2, parseTime_natToString_s (v / 1000) (by omega)]
      rw [Nat.mod_eq_of_lt (by omega)]
    · rw [if_neg h2, if_neg h2]
      by_cases h3 : v < 3600000
      · have hd : v / 60000 ≤ v := Nat.div_le_self v 60000
        have hm : v / 60000 * 60000 ≤ v := Nat.div_mul_le_self v 60000
        have hr : v / 60000 * 60 * 1000 = v / 60000 * 60000 := by ring
        rw [if_pos h3, if_pos h3, parseTime_natToString_m (v / 60000) (by omega), hr]
        rw [Nat.mod_eq_of_lt (by omega)]
      · have hd : v / 3600000 ≤ v := Nat.div_le_self v 3600000
        have hm : v / 3600000 * 3600000 ≤ v := Nat.div_mul_le_self v 3600000
        have hr : v / 3600000 * 60 * 60 * 1000 = v / 3600000 * 3600000 := by ring
        rw [if_neg h3, if_neg h3, parseTime_natToString_h (v / 3600000) (by omega), hr]
        rw [Nat.mod_eq_of_lt (by omega)]

/-- Witness for `parse_format_displayTrunc` at the accepted string
`"90s"` (90000 ms, displayed as `"1m"`, parsing back to 60000 ms). -/
theorem parse_format_displayTrunc_witness :
    parseTime (formatTime 90000) = some (displayTrunc 90000) :=
  parse_format_displayTrunc "90s" 90000 (by decide)

end MatrixFilter
